import Mathlib

/-!
Verification of the survey-session core of the Survey-tool repository.

The JavaScript source is embedded shallowly:

* JS objects used as string-keyed dictionaries (`byFloor`, `byRoom`,
  `cameraUpdates`, `originalMap`) are modelled as association lists kept in
  *insertion order*, together with an explicit model of ECMAScript property
  enumeration order (`jsKeyOrder`): own string keys that are canonical array
  indices are enumerated first in ascending numeric order, all remaining keys
  follow in insertion order.  `Object.entries` is modelled by `jsEntries`.
* JS truthiness on optional strings (`x || y`) is modelled by `truthyStr` /
  `jsOrS` (absent and `""` are falsy).
* JS numbers occurring only as opaque data are modelled as `ℚ`; the one place
  that really computes (the haversine formula) is modelled over `ℝ`.
* `Math.round x` is `⌊x + 1/2⌋`, which is Mathlib's `round`.
* Nondeterministic inputs (`Date.now()`, `toISOString()`) are passed in as
  explicit parameters.
-/

/-! ## Generic JS-flavoured helpers -/

/-- JS truthiness for an optional string: `null`/`undefined` and `""` are
falsy.  `truthyStr x` is `x` normalised so that falsy values become `none`. -/
def truthyStr : Option String → Option String
  | some s => if s = "" then none else some s
  | none => none

/-- JS `a || b` where `a` is an optional string and `b` a string. -/
def jsOrS (a : Option String) (b : String) : String :=
  match truthyStr a with
  | some s => s
  | none => b

/-- Property read on a JS object modelled as an insertion-ordered
association list. -/
def alookup (k : String) : List (String × β) → Option β
  | [] => none
  | (k', v) :: rest => if k' = k then some v else alookup k rest

/-- Property write on a JS object: if the key exists its value is updated in
place (enumeration position kept), otherwise the pair is appended (a fresh
key is created last in insertion order). -/
def upsert (k : String) (b0 : β) (f : β → β) : List (String × β) → List (String × β)
  | [] => [(k, b0)]
  | (k', v) :: rest => if k' = k then (k', f v) :: rest else (k', v) :: upsert k b0 f rest

/-- First-seen-order deduplication of a key list (the insertion order of the
keys of a JS object built by repeated assignment). -/
def firstSeen (l : List String) : List String :=
  l.foldl (fun acc k => if k ∈ acc then acc else acc ++ [k]) []

/-- Numeric value of an all-digit string. -/
def strToNat (s : String) : Nat :=
  s.data.foldl (fun n c => n * 10 + (c.toNat - 48)) 0

/-- ECMAScript array-index property key: a canonical decimal numeral whose
value is below 2^32 - 1 (no leading zeros except the numeral `"0"`). -/
def isArrayIndexKey (s : String) : Bool :=
  !s.data.isEmpty && s.data.all (fun c => c.isDigit) &&
    (s = "0" || s.data.head? ≠ some '0') && strToNat s < 4294967295

/-- Insert a key into a list sorted ascending by `val`. -/
def insertSortedBy (val : String → Nat) (k : String) : List String → List String
  | [] => [k]
  | k' :: rest => if val k ≤ val k' then k :: k' :: rest else k' :: insertSortedBy val k rest

/-- Sort a key list ascending by `val`. -/
def sortByVal (val : String → Nat) (l : List String) : List String :=
  l.foldr (insertSortedBy val) []

/-- ECMAScript own-property enumeration order for a list of string keys given
in insertion order: array-index keys first, ascending numerically, then the
remaining keys in insertion order. -/
def jsKeyOrder (ks : List String) : List String :=
  sortByVal strToNat (ks.filter (fun k => isArrayIndexKey k)) ++
    ks.filter (fun k => !isArrayIndexKey k)

/-- `Object.entries` on a JS object modelled as an insertion-ordered
association list: the entries in ECMAScript enumeration order. -/
def jsEntries (m : List (String × β)) : List (String × β) :=
  (jsKeyOrder (m.map Prod.fst)).filterMap (fun k => (alookup k m).map (fun v => (k, v)))

/-- Fold building a JS object used as a grouping dictionary: for each `c`,
`acc[key c]` is created as `init c` when absent, else updated by `upd c`. -/
def groupFold (key : α → String) (init : α → β) (upd : α → β → β) (xs : List α) :
    List (String × β) :=
  xs.foldl (fun acc c => upsert (key c) (init c) (upd c) acc) []

/-- `Array.prototype.map` with the element index (second callback argument). -/
def mapWithIndex (f : Nat → α → β) : Nat → List α → List β
  | _, [] => []
  | i, a :: l => f i a :: mapWithIndex f (i + 1) l

/-! ## Data model (from `src/utils/cameraData.js` and the input format) -/

/-- A camera record of the input dataset (`cameraJson.cameras[i]`).  All
fields other than `id` are optional in the untyped source. -/
structure SrcCamera where
  id : String
  name : Option String := none
  room : Option String := none
  floorId : Option String := none
  floorName : Option String := none
  latitude : Option ℚ := none
  longitude : Option ℚ := none
  mountType : Option String := none
  height : Option ℚ := none
  rotation : Option ℚ := none
  fieldOfView : Option ℚ := none
  range : Option ℚ := none
  tilt : Option ℚ := none
deriving DecidableEq

/-- The input dataset: a `cameras` array plus any other top-level fields
(preserved by spreads); the latter are modelled as an opaque field list. -/
structure CameraJson where
  cameras : List SrcCamera
  extra : List (String × String) := []
deriving DecidableEq

/-- The per-floor accumulator of `parseCameraData` (`byFloor[floorId]`). -/
structure FloorBucket where
  cameras : List SrcCamera
  floorName : Option String
deriving DecidableEq

/-- A room produced by `parseCameraData`. -/
structure ParsedRoom where
  name : String
  cameras : List SrcCamera
  center : Option ℚ × Option ℚ
deriving DecidableEq

/-- A floor produced by `parseCameraData`. -/
structure ParsedFloor where
  floorId : String
  floorName : String
  rooms : List ParsedRoom
  cameraCount : Nat
deriving DecidableEq

/-- The result of `parseCameraData`. -/
structure ParsedData where
  floors : List ParsedFloor
  totalCameras : Nat
  totalRooms : Nat
deriving DecidableEq

/-- `cam.floorId || 'unknown'`. -/
def floorKeyOf (cam : SrcCamera) : String :=
  jsOrS cam.floorId "unknown"

/-- `cam.room || cam.name || ("Camera " + cam.id)`. -/
def roomKeyOf (cam : SrcCamera) : String :=
  jsOrS cam.room (jsOrS cam.name ("Camera " ++ cam.id))

/-- First truthy `floorName` among a camera list (the value accumulated into
`byFloor[floorId].floorName`). -/
def firstTruthyName : List SrcCamera → Option String
  | [] => none
  | c :: cs => truthyStr c.floorName <|> firstTruthyName cs

/-- Room center: the first camera's coordinates (`roomCameras[0]`). -/
def centerOf : List SrcCamera → Option ℚ × Option ℚ
  | [] => (none, none)
  | c :: _ => (c.latitude, c.longitude)

/-- `parseCameraData` from `src/utils/cameraData.js`: group cameras by floor
id, then by room key within each floor, resolving display floor names. -/
def parseCameraData (j : CameraJson) : ParsedData :=
  let cams := j.cameras
  let byFloor := groupFold floorKeyOf
    (fun c => ({ cameras := [c], floorName := truthyStr c.floorName } : FloorBucket))
    (fun c b => { cameras := b.cameras ++ [c], floorName := b.floorName <|> truthyStr c.floorName })
    cams
  let floorEntries := jsEntries byFloor
  let floors := mapWithIndex (fun index (e : String × FloorBucket) =>
    let byRoom := groupFold roomKeyOf (fun c => [c]) (fun c l => l ++ [c]) e.2.cameras
    let rooms := (jsEntries byRoom).map (fun re =>
      { name := re.1, cameras := re.2, center := centerOf re.2 : ParsedRoom })
    { floorId := e.1
      floorName := e.2.floorName.getD
        (if floorEntries.length = 1 then "All Rooms" else "Floor " ++ toString (index + 1))
      rooms := rooms
      cameraCount := e.2.cameras.length : ParsedFloor }) 0 floorEntries
  { floors := floors
    totalCameras := cams.length
    totalRooms := floors.foldl (fun s f => s + f.rooms.length) 0 }

/-! ## Survey items and the session store (from `src/App.jsx`) -/

/-- A photo attachment (`{ dataUrl, label, timestamp }` from `PhotoCapture`,
plus the optional remote reference `s3Url` read by the exporter). -/
structure Photo where
  dataUrl : String
  label : String
  timestamp : String
  s3Url : Option String := none
deriving DecidableEq

/-- The per-room survey record (initialised in `buildSurveyItems`). -/
structure SurveyRecord where
  ceilingHeight : String := ""
  ceilingHeightUnit : String := "meters"
  powerOutletLocation : String := ""
  mountingSurface : String := ""
  networkConnectivity : String := ""
  obstructions : String := ""
  notes : String := ""
  photos : List Photo := []
  completed : Bool := false
  completedAt : Option String := none
deriving DecidableEq

/-- A survey-time camera: the spread copy of the source camera (`base`) plus
the mutable reposition fields added by `buildSurveyItems`. -/
structure SCamera where
  base : SrcCamera
  newLatitude : Option ℚ := none
  newLongitude : Option ℚ := none
  repositioned : Bool := false
  repositionReason : Option String := none
deriving DecidableEq

/-- A room survey item (one element of the `surveyItems` state array). -/
structure SurveyItem where
  id : String
  index : Nat
  floorId : String
  floorName : String
  roomName : String
  cameras : List SCamera
  center : Option ℚ × Option ℚ
  survey : SurveyRecord
deriving DecidableEq

/-- The partial camera fields passed to `handleUpdateCamera` (the callers
pass `newLatitude`, `newLongitude`, `repositioned`, `repositionReason`);
`none` means the field is absent from the update object. -/
structure CameraPatch where
  newLatitude : Option (Option ℚ) := none
  newLongitude : Option (Option ℚ) := none
  repositioned : Option Bool := none
  repositionReason : Option (Option String) := none
deriving DecidableEq

/-- The partial item fields passed to `handleUpdateSurveyItem` (the callers
pass a replacement `survey` object). -/
structure ItemPatch where
  survey : Option SurveyRecord := none
deriving DecidableEq

/-- JS spread merge `{ ...cam, ...cameraUpdates }` restricted to the fields
the update object may carry. -/
def applyCameraPatch (cam : SCamera) (p : CameraPatch) : SCamera :=
  { cam with
    newLatitude := p.newLatitude.getD cam.newLatitude
    newLongitude := p.newLongitude.getD cam.newLongitude
    repositioned := p.repositioned.getD cam.repositioned
    repositionReason := p.repositionReason.getD cam.repositionReason }

/-- `handleUpdateCamera(itemId, cameraId, cameraUpdates)` from `App.jsx`:
map over the items, and inside the matching item map over its cameras,
merging the update into the matching camera. -/
def updateCamera (itemId cameraId : String) (p : CameraPatch) (items : List SurveyItem) :
    List SurveyItem :=
  items.map (fun item =>
    if item.id = itemId then
      { item with
        cameras := item.cameras.map (fun cam =>
          if cam.base.id = cameraId then applyCameraPatch cam p else cam) }
    else item)

/-- `handleUpdateSurveyItem(itemId, updates)` from `App.jsx`: map over the
items, spreading the update into the matching item. -/
def updateRoom (itemId : String) (p : ItemPatch) (items : List SurveyItem) :
    List SurveyItem :=
  items.map (fun item =>
    if item.id = itemId then { item with survey := p.survey.getD item.survey } else item)

/-! ## Progress tracking and next-room navigation (`SurveyShell.jsx`) -/

/-- `completed` count from `SurveyShell`: rooms whose `survey.completed`. -/
def completedCount (items : List SurveyItem) : Nat :=
  (items.filter (fun i => i.survey.completed)).length

/-- `progressPct` from `SurveyShell`:
`total > 0 ? Math.round((completed / total) * 100) : 0`. -/
def progressPct (items : List SurveyItem) : ℤ :=
  if items.length > 0 then
    round (((completedCount items : ℚ) / (items.length : ℚ)) * 100)
  else 0

/-- `handleNextRoom` from `SurveyShell.jsx`, as the room it navigates to
(`none` means every candidate was complete and the caller goes to review).
`findIndex` yields `-1` when the id is absent; `slice(0, -1)` then drops the
last element, which the translation reproduces. -/
def handleNextRoom (items : List SurveyItem) (selectedRoomId : String) : Option SurveyItem :=
  let remaining :=
    match items.findIdx? (fun i => i.id = selectedRoomId) with
    | some n => items.drop (n + 1) ++ items.take n
    | none => items.drop 0 ++ items.take (items.length - 1)
  remaining.find? (fun i => !i.survey.completed)

/-! ## Pending upload queue (`src/utils/storage.js`) -/

/-- One entry of the durable `pending_uploads` queue: the caller's upload
data plus the generated `queuedAt` timestamp and `upload_{Date.now()}` id. -/
structure QueueEntry (α : Type) where
  data : α
  queuedAt : String
  id : String
deriving DecidableEq

/-- `queuePendingUpload`: append one entry to the stored queue.  `nowIso` is
`new Date().toISOString()` and `nowMs` is `Date.now()`. -/
def queuePendingUpload (uploadData : α) (nowIso : String) (nowMs : Nat)
    (queue : List (QueueEntry α)) : List (QueueEntry α) :=
  queue ++ [{ data := uploadData, queuedAt := nowIso, id := "upload_" ++ toString nowMs }]

/-- `removePendingUpload`: keep the entries whose id differs. -/
def removePendingUpload (uploadId : String) (queue : List (QueueEntry α)) :
    List (QueueEntry α) :=
  queue.filter (fun u => u.id ≠ uploadId)

/-! ## Export payload (`src/utils/storage.js`, `exportSurveyPayload`) -/

/-- A photo entry of the export document:
`{ label, timestamp, url: p.s3Url || p.dataUrl }`. -/
structure ExportPhoto where
  label : String
  timestamp : String
  url : String
deriving DecidableEq

/-- A camera entry of the export document. -/
structure ExportCamera where
  id : String
  name : Option String
  mountType : Option String
  originalPosition : Option ℚ × Option ℚ
  newPosition : Option (Option ℚ × Option ℚ)
  repositioned : Bool
  repositionReason : Option String
  height : Option ℚ
  rotation : Option ℚ
  fieldOfView : Option ℚ
  range : Option ℚ
  tilt : Option ℚ
deriving DecidableEq

/-- The survey block of a room entry of the export document. -/
structure ExportSurvey where
  ceilingHeight : String
  ceilingHeightUnit : String
  powerOutletLocation : String
  mountingSurface : String
  networkConnectivity : String
  obstructions : String
  notes : String
  photoCount : Nat
  photos : List ExportPhoto
  completed : Bool
  completedAt : Option String
deriving DecidableEq

/-- A room entry of the export document. -/
structure ExportRoom where
  floorId : String
  roomName : String
  cameras : List ExportCamera
  survey : ExportSurvey
deriving DecidableEq

/-- The summary block of the export document. -/
structure ExportSummary where
  totalRooms : Nat
  completedRooms : Nat
  totalCameras : Nat
  repositionedCameras : Nat
deriving DecidableEq

/-- The metadata argument of `exportSurveyPayload`. -/
structure ExportMeta where
  surveyId : String
  mapId : String
  siteName : String
deriving DecidableEq

/-- The export document. -/
structure ExportPayload where
  surveyId : String
  mapId : String
  siteName : String
  exportedAt : String
  summary : ExportSummary
  rooms : List ExportRoom
deriving DecidableEq

/-- The camera entry built by `exportSurveyPayload` for one survey camera. -/
def exportCameraOf (cam : SCamera) : ExportCamera :=
  { id := cam.base.id
    name := cam.base.name
    mountType := cam.base.mountType
    originalPosition := (cam.base.latitude, cam.base.longitude)
    newPosition :=
      if cam.repositioned then some (cam.newLatitude, cam.newLongitude) else none
    repositioned := cam.repositioned
    repositionReason := truthyStr cam.repositionReason
    height := cam.base.height
    rotation := cam.base.rotation
    fieldOfView := cam.base.fieldOfView
    range := cam.base.range
    tilt := cam.base.tilt }

/-- The room entry built by `exportSurveyPayload` for one survey item. -/
def exportRoomOf (item : SurveyItem) : ExportRoom :=
  { floorId := item.floorId
    roomName := item.roomName
    cameras := item.cameras.map exportCameraOf
    survey :=
      { ceilingHeight := item.survey.ceilingHeight
        ceilingHeightUnit := item.survey.ceilingHeightUnit
        powerOutletLocation := item.survey.powerOutletLocation
        mountingSurface := item.survey.mountingSurface
        networkConnectivity := item.survey.networkConnectivity
        obstructions := item.survey.obstructions
        notes := item.survey.notes
        photoCount := item.survey.photos.length
        photos := item.survey.photos.map (fun p =>
          { label := p.label, timestamp := p.timestamp, url := jsOrS p.s3Url p.dataUrl })
        completed := item.survey.completed
        completedAt := item.survey.completedAt } }

/-- `exportSurveyPayload(surveyItems, metadata)`; `now` stands for the
`new Date().toISOString()` export timestamp. -/
def exportSurveyPayload (items : List SurveyItem) (meta : ExportMeta) (now : String) :
    ExportPayload :=
  { surveyId := meta.surveyId
    mapId := meta.mapId
    siteName := meta.siteName
    exportedAt := now
    summary :=
      { totalRooms := items.length
        completedRooms := (items.filter (fun i => i.survey.completed)).length
        totalCameras := items.foldl (fun s i => s + i.cameras.length) 0
        repositionedCameras :=
          items.foldl (fun s i => s + (i.cameras.filter (fun c => c.repositioned)).length) 0 }
    rooms := items.map exportRoomOf }

/-! ## Review screen: haversine distance, updated placements, change log
(`src/components/ReviewScreen.jsx`) -/

/-- Degrees to radians, `(deg * Math.PI) / 180`. -/
noncomputable def toRad (deg : ℝ) : ℝ := deg * Real.pi / 180

/-- `Math.atan2 y x` for finite real arguments. -/
noncomputable def jsAtan2 (y x : ℝ) : ℝ :=
  if 0 < x then Real.arctan (y / x)
  else if x < 0 ∧ 0 ≤ y then Real.arctan (y / x) + Real.pi
  else if x < 0 then Real.arctan (y / x) - Real.pi
  else if 0 < y then Real.pi / 2
  else if y < 0 then -(Real.pi / 2)
  else 0

/-- The intermediate `a` of `haversineDistance`. -/
noncomputable def havA (lat1 lng1 lat2 lng2 : ℝ) : ℝ :=
  Real.sin (toRad (lat2 - lat1) / 2) ^ 2 +
    Real.cos (toRad lat1) * Real.cos (toRad lat2) * Real.sin (toRad (lng2 - lng1) / 2) ^ 2

/-- `haversineDistance(lat1, lng1, lat2, lng2)` from `ReviewScreen.jsx`:
`R * 2 * Math.atan2(Math.sqrt(a), Math.sqrt(1 - a))` with `R = 6371000`. -/
noncomputable def haversineDistance (lat1 lng1 lat2 lng2 : ℝ) : ℝ :=
  6371000 * 2 *
    jsAtan2 (Real.sqrt (havA lat1 lng1 lat2 lng2)) (Real.sqrt (1 - havA lat1 lng1 lat2 lng2))

/-- The `cameraUpdates` dictionary of `buildUpdatedPlacements`: repeated JS
object assignment `cameraUpdates[cam.id] = cam` over every repositioned
camera, in room-item order (later assignments overwrite earlier ones). -/
def cameraUpdatesOf (items : List SurveyItem) : List (String × SCamera) :=
  items.foldl (fun acc item =>
    item.cameras.foldl (fun acc cam =>
      if cam.repositioned then upsert cam.base.id cam (fun _ => cam) acc else acc) acc) []

/-- `buildUpdatedPlacements(originalCameraJson, surveyItems)`: the original
dataset with `latitude`/`longitude` overwritten by `newLatitude`/
`newLongitude` for every camera id that has a repositioned update. -/
def buildUpdatedPlacements (orig : Option CameraJson) (items : List SurveyItem) :
    Option CameraJson :=
  match orig with
  | none => none
  | some oj =>
    let cameraUpdates := cameraUpdatesOf items
    let updatedCameras := oj.cameras.map (fun cam =>
      match alookup cam.id cameraUpdates with
      | none => cam
      | some u => { cam with latitude := u.newLatitude, longitude := u.newLongitude })
    some { oj with cameras := updatedCameras }

/-- One record of the camera change log. -/
structure CameraChange where
  id : String
  name : String
  room : String
  reason : Option String
  original : Option (Option ℚ × Option ℚ)
  new : Option ℚ × Option ℚ
  distanceMeters : Option ℝ

/-- The `originalMap` dictionary of `buildCameraChanges`: JS object
assignment `originalMap[cam.id] = cam` over the original dataset. -/
def originalMapOf (oj : CameraJson) : List (String × SrcCamera) :=
  oj.cameras.foldl (fun acc cam => upsert cam.id cam (fun _ => cam) acc) []

/-- A JS value that may be `null` used as a number: `null` coerces to 0 in
the arithmetic performed by `haversineDistance`. -/
def qord (x : Option ℚ) : ℝ := ((x.getD 0 : ℚ) : ℝ)

/-- The change record `buildCameraChanges` pushes for one repositioned
camera `cam` of the room item `item`. -/
noncomputable def changeRecordFor (oj : CameraJson) (item : SurveyItem) (cam : SCamera) :
    CameraChange :=
  let og := alookup cam.base.id (originalMapOf oj)
  let distance : Option ℝ := og.map (fun o =>
    haversineDistance (qord o.latitude) (qord o.longitude)
      (qord cam.newLatitude) (qord cam.newLongitude))
  { id := cam.base.id
    name := jsOrS cam.base.name cam.base.id
    room := item.roomName
    reason := truthyStr cam.repositionReason
    original := og.map (fun o => (o.latitude, o.longitude))
    new := (cam.newLatitude, cam.newLongitude)
    distanceMeters := distance.map (fun d => ((round (d * 10) : ℤ) : ℝ) / 10) }

/-- `buildCameraChanges(originalCameraJson, surveyItems)`: one change record
per repositioned camera, in room order. -/
noncomputable def buildCameraChanges (orig : Option CameraJson) (items : List SurveyItem) :
    List CameraChange :=
  match orig with
  | none => []
  | some oj =>
    items.flatMap (fun item =>
      (item.cameras.filter (fun cam => cam.repositioned)).map (changeRecordFor oj item))

/-! ## Concrete instances used by witnesses and counterexamples -/

/-- Dataset camera `a` (never repositioned). -/
def srcA : SrcCamera := { id := "a", latitude := some 0, longitude := some 0 }

/-- Dataset camera `b` (repositioned during the sample session). -/
def srcB : SrcCamera :=
  { id := "b", name := some "Cam B", latitude := some 1, longitude := some 1 }

/-- Dataset camera `c` (never repositioned). -/
def srcC : SrcCamera := { id := "c", latitude := some 2, longitude := some 2 }

/-- A three-camera dataset. -/
def ojW : CameraJson := { cameras := [srcA, srcB, srcC] }

/-- Survey camera over `srcA`, untouched. -/
def scamA : SCamera := { base := srcA }

/-- Survey camera over `srcB`, marked repositioned to `(0, 1)`. -/
def scamB : SCamera :=
  { base := srcB, newLatitude := some 0, newLongitude := some 1,
    repositioned := true, repositionReason := some "obstruction" }

/-- Survey camera whose id `d` is absent from the dataset `ojW`, marked
repositioned. -/
def scamD : SCamera :=
  { base := { id := "d" }, newLatitude := some 3, newLongitude := some 4,
    repositioned := true }

/-- A completed sample room holding `scamA` and `scamB`. -/
def itemW1 : SurveyItem :=
  { id := "r1", index := 0, floorId := "f1", floorName := "Floor 1", roomName := "Lobby",
    cameras := [scamA, scamB], center := (some 0, some 0),
    survey := { completed := true, completedAt := some "t1" } }

/-- An incomplete sample room holding the dataset-orphan camera `scamD`. -/
def itemW2 : SurveyItem :=
  { id := "r2", index := 1, floorId := "f1", floorName := "Floor 1", roomName := "Hall",
    cameras := [scamD], center := (none, none), survey := {} }

/-- An incomplete, camera-less sample room. -/
def itemW3 : SurveyItem :=
  { id := "r3", index := 2, floorId := "f1", floorName := "Floor 1", roomName := "Office",
    cameras := [], center := (none, none), survey := {} }

/-- A completed, camera-less sample room. -/
def itemW4 : SurveyItem :=
  { id := "r4", index := 3, floorId := "f1", floorName := "Floor 1", roomName := "Store",
    cameras := [], center := (none, none),
    survey := { completed := true, completedAt := some "t4" } }

/-- Sample item list: one completed room out of three. -/
def itemsW : List SurveyItem := [itemW1, itemW2, itemW3]

/-- Sample item list for the ring scan: the single incomplete room `r2`
comes before the starting room `r4`, which is last. -/
def itemsC4 : List SurveyItem := [itemW2, itemW1, itemW4]

/-- A camera patch as sent by the reposition modal. -/
def cpW : CameraPatch :=
  { newLatitude := some (some 5), newLongitude := some (some 6),
    repositioned := some true, repositionReason := some (some "moved") }

/-- An item patch marking the room complete. -/
def ipW : ItemPatch :=
  { survey := some { completed := true, completedAt := some "t9" } }

/-- A photo that has never been uploaded (no remote reference). -/
def photoCex : Photo :=
  { dataUrl := "data:image/jpeg;base64,AAAA", label := "overview", timestamp := "tp" }

/-- An incomplete room whose survey holds the non-uploaded photo. -/
def itemW5 : SurveyItem :=
  { id := "r5", index := 0, floorId := "f1", floorName := "Floor 1", roomName := "Lab",
    cameras := [scamA], center := (none, none),
    survey := { photos := [photoCex] } }

/-- Export metadata sample. -/
def metaW : ExportMeta := { surveyId := "s1", mapId := "m1", siteName := "Site" }

/-- Camera whose floor id is the integer-like key `"2"`, seen first. -/
def cexCamA : SrcCamera := { id := "a", floorId := some "2" }

/-- Camera whose floor id is the integer-like key `"1"`, seen second. -/
def cexCamB : SrcCamera := { id := "b", floorId := some "1" }

/-- Dataset whose floor ids are integer-like strings in descending order. -/
def cexJson : CameraJson := { cameras := [cexCamA, cexCamB] }

/-- The floor that `parseCameraData cexJson` enumerates first: floor `"1"`,
although floor `"2"` was seen first in the dataset. -/
def floorCex : ParsedFloor :=
  { floorId := "1", floorName := "Floor 1",
    rooms := [{ name := "Camera b", cameras := [cexCamB], center := (none, none) }],
    cameraCount := 1 }

/-! ## Helper lemmas: association lists, grouping, enumeration order -/

theorem alookup_isSome_of_mem_keys {β : Type} {m : List (String × β)} {k : String}
    (h : k ∈ m.map Prod.fst) : ∃ v, alookup k m = some v := by
  induction m with
  | nil => simp at h
  | cons p rest ih =>
    rw [List.map_cons, List.mem_cons] at h
    by_cases hk : p.1 = k
    · exact ⟨p.2, by simp [alookup, hk]⟩
    · have h' : k ∈ rest.map Prod.fst := by
        rcases h with h | h
        · exact absurd h.symm hk
        · exact h
      rcases ih h' with ⟨v, hv⟩
      exact ⟨v, by simp [alookup, hk, hv]⟩

theorem mem_keys_of_alookup_eq_some {β : Type} {m : List (String × β)} {k : String} {v : β}
    (h : alookup k m = some v) : k ∈ m.map Prod.fst ∧ (k, v) ∈ m := by
  induction m with
  | nil => simp [alookup] at h
  | cons p rest ih =>
    by_cases hk : p.1 = k
    · simp [alookup, hk] at h
      subst h
      refine ⟨by simp [hk], ?_⟩
      rcases p with ⟨k', v'⟩
      simp at hk
      simp [hk]
    · simp [alookup, hk] at h
      rcases ih h with ⟨h1, h2⟩
      exact ⟨by simp [h1], by simp [h2]⟩

theorem upsert_keys {β : Type} (k : String) (b0 : β) (f : β → β) (m : List (String × β)) :
    (upsert k b0 f m).map Prod.fst =
      if k ∈ m.map Prod.fst then m.map Prod.fst else m.map Prod.fst ++ [k] := by
  induction m with
  | nil => simp [upsert]
  | cons p rest ih =>
    by_cases hk : p.1 = k
    · simp [upsert, hk]
    · have hne : ¬ k = p.1 := fun h => hk h.symm
      simp only [upsert, if_neg hk, List.map_cons, ih]
      by_cases hmem : k ∈ rest.map Prod.fst <;> simp [hmem, hne]

theorem alookup_upsert_self {β : Type} (k : String) (b0 : β) (f : β → β)
    (m : List (String × β)) :
    alookup k (upsert k b0 f m) =
      some (match alookup k m with | none => b0 | some v => f v) := by
  induction m with
  | nil => simp [upsert, alookup]
  | cons p rest ih =>
    by_cases hk : p.1 = k
    · simp [upsert, hk, alookup]
    · simp [upsert, hk, alookup, ih]

theorem alookup_upsert_ne {β : Type} {k k' : String} (hne : k' ≠ k) (b0 : β) (f : β → β)
    (m : List (String × β)) :
    alookup k' (upsert k b0 f m) = alookup k' m := by
  have hkk' : ¬ k = k' := fun h => hne h.symm
  induction m with
  | nil => simp [upsert, alookup, hkk']
  | cons p rest ih =>
    by_cases hk : p.1 = k
    · simp [upsert, hk, alookup, hkk']
    · by_cases hk' : p.1 = k'
      · simp [upsert, hk, alookup, hk', hne]
      · simp [upsert, hk, alookup, hk', ih]

theorem firstSeen_append_singleton (l : List String) (x : String) :
    firstSeen (l ++ [x]) =
      if x ∈ firstSeen l then firstSeen l else firstSeen l ++ [x] := by
  simp [firstSeen, List.foldl_append]

theorem mem_foldl_firstSeen (l : List String) (acc : List String) (a : String) :
    (a ∈ l.foldl (fun acc k => if k ∈ acc then acc else acc ++ [k]) acc) ↔
      a ∈ acc ∨ a ∈ l := by
  induction l generalizing acc with
  | nil => simp
  | cons k rest ih =>
    simp only [List.foldl_cons, ih]
    by_cases hk : k ∈ acc
    · simp only [if_pos hk]
      constructor
      · rintro (h | h)
        · exact Or.inl h
        · exact Or.inr (by simp [h])
      · rintro (h | h)
        · exact Or.inl h
        · rcases (by simpa using h) with rfl | h'
          · exact Or.inl hk
          · exact Or.inr h'
    · simp only [if_neg hk, List.mem_append, List.mem_singleton]
      constructor
      · rintro ((h | h) | h)
        · exact Or.inl h
        · exact Or.inr (by simp [h])
        · exact Or.inr (by simp [h])
      · rintro (h | h)
        · exact Or.inl (Or.inl h)
        · rcases (by simpa using h) with rfl | h'
          · exact Or.inl (Or.inr rfl)
          · exact Or.inr h'

theorem mem_firstSeen (l : List String) (a : String) : a ∈ firstSeen l ↔ a ∈ l := by
  simpa using mem_foldl_firstSeen l [] a

theorem groupFold_append_singleton {α β : Type} (key : α → String) (init : α → β)
    (upd : α → β → β) (xs : List α) (a : α) :
    groupFold key init upd (xs ++ [a]) =
      upsert (key a) (init a) (upd a) (groupFold key init upd xs) := by
  simp [groupFold, List.foldl_append]

theorem groupFold_keys {α β : Type} (key : α → String) (init : α → β) (upd : α → β → β)
    (xs : List α) :
    (groupFold key init upd xs).map Prod.fst = firstSeen (xs.map key) := by
  induction xs using List.reverseRecOn with
  | nil => simp [groupFold, firstSeen]
  | append_singleton l a ih =>
    rw [groupFold_append_singleton, upsert_keys, ih, List.map_append, List.map_singleton,
      firstSeen_append_singleton]

theorem groupFold_alookup {α β : Type} (key : α → String) (init : α → β) (upd : α → β → β)
    (xs : List α) (k : String) :
    alookup k (groupFold key init upd xs) =
      match xs.filter (fun c => key c = k) with
      | [] => none
      | c :: cs => some (cs.foldl (fun b x => upd x b) (init c)) := by
  induction xs using List.reverseRecOn with
  | nil => simp [groupFold, alookup]
  | append_singleton l a ih =>
    rw [groupFold_append_singleton]
    by_cases hk : key a = k
    · subst hk
      rw [alookup_upsert_self, ih]
      rcases hf : l.filter (fun c => key c = key a) with _ | ⟨c, cs⟩ <;>
        simp [hf, List.filter_append, List.filter, List.foldl_append]
    · have hne : k ≠ key a := fun h => hk h.symm
      rw [alookup_upsert_ne hne, ih]
      have : (l ++ [a]).filter (fun c => key c = k) = l.filter (fun c => key c = k) := by
        simp [List.filter_append, List.filter, hk]
      rw [this]

theorem foldl_floorBucket (cs : List SrcCamera) (b : FloorBucket) :
    cs.foldl (fun b c =>
        ({ cameras := b.cameras ++ [c],
           floorName := b.floorName <|> truthyStr c.floorName } : FloorBucket)) b =
      { cameras := b.cameras ++ cs, floorName := b.floorName <|> firstTruthyName cs } := by
  induction cs generalizing b with
  | nil =>
    cases b
    simp [firstTruthyName]
  | cons c cs ih =>
    rw [List.foldl_cons, ih]
    rcases b with ⟨bc, bn⟩
    cases bn <;> simp [firstTruthyName]

theorem foldl_append_singleton_list (cs : List α) (b : List α) :
    cs.foldl (fun b x => b ++ [x]) b = b ++ cs := by
  induction cs generalizing b with
  | nil => simp
  | cons c cs ih => simp [ih]

theorem foldl_keepLast (cs : List α) (b : α) :
    cs.foldl (fun _ x => x) b = cs.getLastD b := by
  induction cs generalizing b with
  | nil => simp
  | cons c cs ih => rw [List.foldl_cons, ih, List.getLastD_cons]

theorem mem_insertSortedBy (val : String → Nat) (k a : String) (l : List String) :
    a ∈ insertSortedBy val k l ↔ a = k ∨ a ∈ l := by
  induction l with
  | nil => simp [insertSortedBy]
  | cons k' rest ih =>
    by_cases h : val k ≤ val k'
    · simp [insertSortedBy, h]
    · simp [insertSortedBy, h, ih]
      tauto

theorem mem_sortByVal (val : String → Nat) (a : String) (l : List String) :
    a ∈ sortByVal val l ↔ a ∈ l := by
  induction l with
  | nil => simp [sortByVal]
  | cons k rest ih =>
    simp only [sortByVal, List.foldr_cons] at *
    rw [mem_insertSortedBy, ih, List.mem_cons]

theorem length_insertSortedBy (val : String → Nat) (k : String) (l : List String) :
    (insertSortedBy val k l).length = l.length + 1 := by
  induction l with
  | nil => simp [insertSortedBy]
  | cons k' rest ih =>
    by_cases h : val k ≤ val k'
    · simp [insertSortedBy, h]
    · simp [insertSortedBy, h, ih]

theorem length_sortByVal (val : String → Nat) (l : List String) :
    (sortByVal val l).length = l.length := by
  induction l with
  | nil => simp [sortByVal]
  | cons k rest ih =>
    simp only [sortByVal, List.foldr_cons] at *
    rw [length_insertSortedBy, ih, List.length_cons]

theorem filter_length_partition (p : α → Bool) (l : List α) :
    (l.filter p).length + (l.filter (fun a => !p a)).length = l.length := by
  induction l with
  | nil => simp
  | cons a l ih =>
    cases h : p a <;> simp [List.filter, h, ← ih] <;> omega

theorem jsKeyOrder_mem (ks : List String) (a : String) : a ∈ jsKeyOrder ks ↔ a ∈ ks := by
  simp only [jsKeyOrder, List.mem_append, mem_sortByVal, List.mem_filter]
  by_cases h : isArrayIndexKey a <;> simp [h]

theorem jsKeyOrder_length (ks : List String) : (jsKeyOrder ks).length = ks.length := by
  simp only [jsKeyOrder, List.length_append, length_sortByVal]
  exact filter_length_partition _ ks

theorem filterMap_alookup_map_fst {β : Type} (m : List (String × β)) (ks : List String)
    (h : ∀ k ∈ ks, k ∈ m.map Prod.fst) :
    ((ks.filterMap (fun k => (alookup k m).map (fun v => (k, v)))).map Prod.fst) = ks := by
  induction ks with
  | nil => simp
  | cons k rest ih =>
    rcases alookup_isSome_of_mem_keys (h k (by simp)) with ⟨v, hv⟩
    simp only [List.filterMap_cons, hv, Option.map_some']
    simpa using ih (fun k' hk' => h k' (by simp [hk']))

theorem jsEntries_map_fst {β : Type} (m : List (String × β)) :
    (jsEntries m).map Prod.fst = jsKeyOrder (m.map Prod.fst) := by
  refine filterMap_alookup_map_fst m _ ?_
  intro k hk
  exact (jsKeyOrder_mem _ k).mp hk

theorem jsEntries_length {β : Type} (m : List (String × β)) :
    (jsEntries m).length = m.length := by
  have h1 : ((jsEntries m).map Prod.fst).length = (jsKeyOrder (m.map Prod.fst)).length := by
    rw [jsEntries_map_fst]
  simpa [jsKeyOrder_length] using h1

theorem mem_jsEntries {β : Type} {m : List (String × β)} {e : String × β}
    (h : e ∈ jsEntries m) : alookup e.1 m = some e.2 := by
  simp only [jsEntries, List.mem_filterMap] at h
  rcases h with ⟨k, _, heq⟩
  rcases hl : alookup k m with _ | v
  · simp [hl] at heq
  · simp [hl] at heq
    rcases heq with ⟨rfl, rfl⟩
    exact hl

theorem mapWithIndex_getElem? (f : Nat → α → β) (l : List α) :
    ∀ n i, (mapWithIndex f n l)[i]? = l[i]?.map (f (n + i)) := by
  induction l with
  | nil => intro n i; simp [mapWithIndex]
  | cons a l ih =>
    intro n i
    cases i with
    | zero => simp [mapWithIndex]
    | succ i =>
      simp only [mapWithIndex, List.getElem?_cons_succ, ih (n + 1) i]
      have : n + 1 + i = n + (i + 1) := by omega
      rw [this]

theorem mapWithIndex_length (f : Nat → α → β) (l : List α) :
    ∀ n, (mapWithIndex f n l).length = l.length := by
  induction l with
  | nil => intro n; simp [mapWithIndex]
  | cons a l ih => intro n; simp [mapWithIndex, ih]

theorem foldl_if_filter (p : α → Bool) (step : σ → α → σ) (l : List α) :
    ∀ a, l.foldl (fun acc c => if p c then step acc c else acc) a = (l.filter p).foldl step a := by
  induction l with
  | nil => intro a; simp
  | cons c l ih =>
    intro a
    cases h : p c <;> simp [List.filter, h, ih]

theorem foldl_flatMap (g : α → List γ) (step : σ → γ → σ) (l : List α) :
    ∀ a, l.foldl (fun acc it => (g it).foldl step acc) a = (l.flatMap g).foldl step a := by
  induction l with
  | nil => intro a; simp
  | cons x l ih => intro a; simp [List.flatMap_cons, List.foldl_append, ih]

theorem find?_eq_some_of_unique {p : α → Bool} {l : List α} {r : α}
    (hmem : r ∈ l) (hr : p r = true) (huniq : ∀ x ∈ l, p x = true → x = r) :
    l.find? p = some r := by
  induction l with
  | nil => simp at hmem
  | cons a l ih =>
    by_cases ha : p a = true
    · have haa : a = r := huniq a (by simp) ha
      subst haa
      simp [List.find?, ha]
    · have hne : a ≠ r := fun h => ha (h ▸ hr)
      have hmem' : r ∈ l := by
        rcases List.mem_cons.mp hmem with h | h
        · exact absurd h.symm hne
        · exact h
      have ha' : p a = false := by
        cases h : p a
        · rfl
        · exact absurd h ha
      rw [List.find?_cons, ha']
      exact ih hmem' (fun x hx hpx => huniq x (by simp [hx]) hpx)

/-! ## Claim theorems -/

/-- C7: the completed count is the number of rooms whose `survey.completed`
is true, and the progress percent is `round(100 * completedCount /
totalRooms)`, defined as 0 when there are no rooms; with exactly one of
three rooms complete it is 33. -/
theorem progress_props (items : List SurveyItem) :
    completedCount items = items.countP (fun i => i.survey.completed)
  ∧ (items.length = 0 → progressPct items = 0)
  ∧ (items.length ≠ 0 →
      progressPct items = round ((100 * (completedCount items : ℚ)) / (items.length : ℚ)))
  ∧ (items.length = 3 → completedCount items = 1 → progressPct items = 33) := by
  refine ⟨?_, ?_, ?_, ?_⟩
  · rw [completedCount, List.countP_eq_length_filter]
  · intro h
    simp [progressPct, h]
  · intro h
    have hpos : 0 < items.length := Nat.pos_of_ne_zero h
    rw [progressPct, if_pos hpos]
    congr 1
    ring
  · intro h3 h1
    rw [progressPct, if_pos (by omega), h3, h1]
    rw [round_eq]
    norm_num

/-- C7 witness: on a concrete list with one of three rooms complete the
progress percent evaluates to 33. -/
theorem progress_props_witness :
    itemsW.length = 3 ∧ completedCount itemsW = 1 ∧ progressPct itemsW = 33 :=
  ⟨by decide, by decide, (progress_props itemsW).2.2.2 (by decide) (by decide)⟩

/-- C4: `handleNextRoom` scans the flat room list forward starting just
after the given room, wrapping around to the start: if every room is
complete it yields `none` (review), any room it yields is an incomplete
member of the list and is the *first* incomplete room in ring order (every
room scanned before it is complete), and starting from the last room when
the single incomplete room sits earlier in the list it returns that
earlier room. -/
theorem handleNextRoom_ring (items : List SurveyItem) (rid : String) :
    ((∀ it ∈ items, it.survey.completed = true) → handleNextRoom items rid = none)
  ∧ (∀ r, handleNextRoom items rid = some r → r ∈ items ∧ r.survey.completed = false)
  ∧ (∀ xs z r, items = xs ++ [z] → rid = z.id →
      items.findIdx? (fun i => i.id = rid) = some xs.length →
      r ∈ xs → r.survey.completed = false →
      (∀ x ∈ xs, x ≠ r → x.survey.completed = true) →
      handleNextRoom items rid = some r)
  ∧ (∀ (n : Nat) (r : SurveyItem), items.findIdx? (fun i => i.id = rid) = some n →
      handleNextRoom items rid = some r →
      ∃ l1 l2, items.drop (n + 1) ++ items.take n = l1 ++ r :: l2 ∧
        ∀ x ∈ l1, x.survey.completed = true) := by
  refine ⟨?_, ?_, ?_, ?_⟩
  · intro hall
    rw [handleNextRoom]
    apply List.find?_eq_none.mpr
    intro x hx
    have hx' : x ∈ items := by
      rcases h : items.findIdx? (fun i => i.id = rid) with _ | n <;> rw [h] at hx <;>
        rcases List.mem_append.mp hx with h' | h'
      · exact List.mem_of_mem_drop h'
      · exact List.mem_of_mem_take h'
      · exact List.mem_of_mem_drop h'
      · exact List.mem_of_mem_take h'
    simp [hall x hx']
  · intro r hr
    rw [handleNextRoom] at hr
    have hmem := List.mem_of_find?_eq_some hr
    have hpred := List.find?_some hr
    have hr' : r ∈ items := by
      rcases h : items.findIdx? (fun i => i.id = rid) with _ | n <;> rw [h] at hmem <;>
        rcases List.mem_append.mp hmem with h' | h'
      · exact List.mem_of_mem_drop h'
      · exact List.mem_of_mem_take h'
      · exact List.mem_of_mem_drop h'
      · exact List.mem_of_mem_take h'
    exact ⟨hr', by simpa using hpred⟩
  · intro xs z r hitems hrid hidx hrmem hrinc hothers
    subst hitems
    subst hrid
    rw [handleNextRoom, hidx]
    show ((xs ++ [z]).drop (xs.length + 1) ++
        (xs ++ [z]).take xs.length).find? (fun i => !i.survey.completed) = some r
    have hdrop : (xs ++ [z]).drop (xs.length + 1) = [] := by
      apply List.drop_eq_nil_of_le
      simp
    have htake : (xs ++ [z]).take xs.length = xs := List.take_left xs [z]
    rw [hdrop, htake, List.nil_append]
    apply find?_eq_some_of_unique hrmem (by simp [hrinc])
    intro x hx hpx
    by_contra hne
    have := hothers x hx hne
    simp [this] at hpx
  · intro n r hidx hr
    have hr' : (items.drop (n + 1) ++ items.take n).find?
        (fun i => !i.survey.completed) = some r := by
      rw [handleNextRoom, hidx] at hr
      exact hr
    rw [List.find?_eq_some] at hr'
    rcases hr' with ⟨hp, as, bs, heq, hall⟩
    exact ⟨as, bs, heq, fun x hx => by simpa using hall x hx⟩

/-- C4 witness: in `itemsC4` the only incomplete room `r2` precedes the
last room `r4`; the ring scan starting from `r4` wraps and returns `r2`,
and a fully completed list yields `none`. -/
theorem handleNextRoom_ring_witness :
    itemsC4 = [itemW2, itemW1] ++ [itemW4] ∧
      itemsC4.findIdx? (fun i => i.id = "r4") = some 2 ∧
      handleNextRoom itemsC4 "r4" = some itemW2 ∧
      handleNextRoom [itemW1, itemW4] "r4" = none := by
  refine ⟨by decide, by decide, ?_, ?_⟩
  · exact (handleNextRoom_ring itemsC4 "r4").2.2.1 [itemW2, itemW1] itemW4 itemW2
      (by decide) (by decide) (by decide) (by decide) (by decide) (by decide)
  · exact (handleNextRoom_ring [itemW1, itemW4] "r4").1 (by decide)

theorem map_id_of (l : List α) (f : α → α) (h : ∀ a ∈ l, f a = a) : l.map f = l := by
  induction l with
  | nil => rfl
  | cons a l ih =>
    rw [List.map_cons, h a (by simp), ih (fun a ha => h a (by simp [ha]))]

/-- C1: `updateCamera` and `updateRoom` are tolerant no-ops on unknown room
or camera ids, and otherwise replace exactly the targeted entity: every
other room item, every other camera, and every untouched field (including
the camera's dataset fields) comes through unchanged. -/
theorem update_isolation (items : List SurveyItem) (roomId cameraId : String)
    (cp : CameraPatch) (ip : ItemPatch) :
    ((∀ it ∈ items, it.id ≠ roomId) →
        updateCamera roomId cameraId cp items = items ∧ updateRoom roomId ip items = items)
  ∧ ((∀ it ∈ items, it.id = roomId → ∀ c ∈ it.cameras, c.base.id ≠ cameraId) →
        updateCamera roomId cameraId cp items = items)
  ∧ (∀ (i : Nat) (it : SurveyItem), items[i]? = some it → it.id ≠ roomId →
        (updateCamera roomId cameraId cp items)[i]? = some it ∧
        (updateRoom roomId ip items)[i]? = some it)
  ∧ (∀ (i : Nat) (it : SurveyItem), items[i]? = some it → it.id = roomId →
        (updateRoom roomId ip items)[i]? = some { it with survey := ip.survey.getD it.survey } ∧
        ((updateCamera roomId cameraId cp items)[i]?).map (fun x => x.survey) = some it.survey ∧
        ((updateCamera roomId cameraId cp items)[i]?).map (fun x => x.id) = some it.id ∧
        ((updateCamera roomId cameraId cp items)[i]?).map (fun x => x.cameras.length) =
          some it.cameras.length ∧
        (∀ (j : Nat) (c : SCamera), it.cameras[j]? = some c → c.base.id ≠ cameraId →
          ((updateCamera roomId cameraId cp items)[i]?).bind (fun x => x.cameras[j]?) = some c) ∧
        (∀ (j : Nat) (c : SCamera), it.cameras[j]? = some c → c.base.id = cameraId →
          ((updateCamera roomId cameraId cp items)[i]?).bind (fun x => x.cameras[j]?) =
            some (applyCameraPatch c cp) ∧ (applyCameraPatch c cp).base = c.base)) := by
  refine ⟨?_, ?_, ?_, ?_⟩
  · intro h
    constructor
    · exact map_id_of _ _ (fun it hit => by simp [h it hit])
    · exact map_id_of _ _ (fun it hit => by simp [h it hit])
  · intro h
    apply map_id_of
    intro it hit
    by_cases hid : it.id = roomId
    · rw [if_pos hid]
      have : it.cameras.map (fun cam =>
          if cam.base.id = cameraId then applyCameraPatch cam cp else cam) = it.cameras :=
        map_id_of _ _ (fun c hc => by simp [h it hit hid c hc])
      rw [this]
    · rw [if_neg hid]
  · intro i it hi hid
    constructor
    · rw [updateCamera, List.getElem?_map, hi, Option.map_some']
      rw [if_neg hid]
    · rw [updateRoom, List.getElem?_map, hi, Option.map_some']
      rw [if_neg hid]
  · intro i it hi hid
    refine ⟨?_, ?_, ?_, ?_, ?_, ?_⟩
    · rw [updateRoom, List.getElem?_map, hi, Option.map_some', if_pos hid]
    · rw [updateCamera, List.getElem?_map, hi, Option.map_some', if_pos hid]
      rfl
    · rw [updateCamera, List.getElem?_map, hi, Option.map_some', if_pos hid]
      rfl
    · rw [updateCamera, List.getElem?_map, hi, Option.map_some', if_pos hid]
      simp
    · intro j c hj hc
      rw [updateCamera, List.getElem?_map, hi, Option.map_some', if_pos hid]
      simp only [Option.some_bind, List.getElem?_map, hj, Option.map_some']
      rw [if_neg hc]
    · intro j c hj hc
      refine ⟨?_, rfl⟩
      rw [updateCamera, List.getElem?_map, hi, Option.map_some', if_pos hid]
      simp only [Option.some_bind, List.getElem?_map, hj, Option.map_some']
      rw [if_pos hc]

/-- C1 witness: concrete instantiations of the no-op and frame clauses on
`itemsW` (update of camera `b` in room `r1`; no-op on unknown room `rX`). -/
theorem update_isolation_witness :
    (updateCamera "rX" "b" cpW itemsW = itemsW ∧ updateRoom "rX" ipW itemsW = itemsW) ∧
    (updateCamera "r1" "zz" cpW itemsW = itemsW) ∧
    ((updateCamera "r1" "b" cpW itemsW)[1]? = some itemW2) ∧
    (((updateCamera "r1" "b" cpW itemsW)[0]?).bind (fun x => x.cameras[0]?) = some scamA) ∧
    (((updateCamera "r1" "b" cpW itemsW)[0]?).bind (fun x => x.cameras[1]?) =
        some (applyCameraPatch scamB cpW)) ∧
    ((updateRoom "r1" ipW itemsW)[0]? =
        some { itemW1 with survey := ipW.survey.getD itemW1.survey }) := by
  refine ⟨?_, ?_, ?_, ?_, ?_, ?_⟩
  · exact (update_isolation itemsW "rX" "b" cpW ipW).1 (by decide)
  · exact (update_isolation itemsW "r1" "zz" cpW ipW).2.1 (by decide)
  · exact ((update_isolation itemsW "r1" "b" cpW ipW).2.2.1 1 itemW2 (by decide)
      (by decide)).1
  · exact ((update_isolation itemsW "r1" "b" cpW ipW).2.2.2 0 itemW1 (by decide)
      (by decide)).2.2.2.2.1 0 scamA (by decide) (by decide)
  · exact (((update_isolation itemsW "r1" "b" cpW ipW).2.2.2 0 itemW1 (by decide)
      (by decide)).2.2.2.2.2 1 scamB (by decide) (by decide)).1
  · exact ((update_isolation itemsW "r1" "b" cpW ipW).2.2.2 0 itemW1 (by decide)
      (by decide)).1

/-- C9 (amended): enqueue appends exactly one entry, carrying the generated
id and queued timestamp, to the end of the stored queue; remove deletes
precisely the entries bearing the given id and leaves all others untouched
in order — exactly one entry whenever the queued ids are pairwise distinct. -/
theorem pendingUploads_queue_ops {α : Type} (d : α) (nowIso : String) (nowMs : Nat)
    (q : List (QueueEntry α)) (uid : String) :
    queuePendingUpload d nowIso nowMs q =
        q ++ [{ data := d, queuedAt := nowIso, id := "upload_" ++ toString nowMs }]
  ∧ (∀ e ∈ q, e.id ≠ uid → e ∈ removePendingUpload uid q)
  ∧ (∀ e ∈ removePendingUpload uid q, e ∈ q ∧ e.id ≠ uid)
  ∧ ((q.map (fun e => e.id)).Nodup →
      ∀ (l1 l2 : List (QueueEntry α)) (e : QueueEntry α),
        q = l1 ++ e :: l2 → e.id = uid → removePendingUpload uid q = l1 ++ l2) := by
  refine ⟨rfl, ?_, ?_, ?_⟩
  · intro e he hne
    rw [removePendingUpload, List.mem_filter]
    exact ⟨he, by simpa using hne⟩
  · intro e he
    rw [removePendingUpload, List.mem_filter] at he
    exact ⟨he.1, by simpa using he.2⟩
  · intro hnod l1 l2 e hq he
    subst hq
    subst he
    rw [List.map_append, List.map_cons, List.nodup_append] at hnod
    rcases hnod with ⟨h1, h2, hdisj⟩
    have hl1 : ∀ x ∈ l1, x.id ≠ e.id := by
      intro x hx heq
      exact hdisj (List.mem_map_of_mem (fun y => y.id) hx) (by simp [heq])
    have hl2 : ∀ x ∈ l2, x.id ≠ e.id := by
      intro x hx heq
      rcases List.nodup_cons.mp h2 with ⟨hnotin, _⟩
      exact hnotin (heq ▸ List.mem_map_of_mem (fun y => y.id) hx)
    rw [removePendingUpload, List.filter_append, List.filter_cons]
    rw [if_neg (by simp)]
    rw [List.filter_eq_self.mpr (fun x hx => by simpa using hl1 x hx),
      List.filter_eq_self.mpr (fun x hx => by simpa using hl2 x hx)]

/-- C9 witness: on a queue of two distinct-id entries, removing the first id
deletes exactly that entry and keeps the other; enqueue appends at the end. -/
theorem pendingUploads_queue_ops_witness :
    queuePendingUpload (2 : Nat) "t2" 6 (queuePendingUpload (1 : Nat) "t1" 5 []) =
      [{ data := 1, queuedAt := "t1", id := "upload_5" },
       { data := 2, queuedAt := "t2", id := "upload_6" }] ∧
    removePendingUpload "upload_5"
        [({ data := 1, queuedAt := "t1", id := "upload_5" } : QueueEntry Nat),
         { data := 2, queuedAt := "t2", id := "upload_6" }] =
      [{ data := 2, queuedAt := "t2", id := "upload_6" }] := by
  constructor
  · have h := (pendingUploads_queue_ops (2 : Nat) "t2" 6
      (queuePendingUpload (1 : Nat) "t1" 5 []) "upload_5").1
    rw [h]
    decide
  · exact (pendingUploads_queue_ops (0 : Nat) "t0" 0
      [({ data := 1, queuedAt := "t1", id := "upload_5" } : QueueEntry Nat),
       { data := 2, queuedAt := "t2", id := "upload_6" }] "upload_5").2.2.2
      (by decide) [] [{ data := 2, queuedAt := "t2", id := "upload_6" }]
      { data := 1, queuedAt := "t1", id := "upload_5" } (by decide) (by decide)

/-- C9 counterexample: two enqueues within the same millisecond generate the
same id `upload_5`; removing that id then deletes both entries (the queue
becomes empty), not exactly one entry. -/
theorem pendingUploads_remove_cex :
    (queuePendingUpload (2 : Nat) "t" 5 (queuePendingUpload (1 : Nat) "t" 5 [])).length = 2 ∧
    removePendingUpload "upload_5"
        (queuePendingUpload (2 : Nat) "t" 5 (queuePendingUpload (1 : Nat) "t" 5 [])) = [] := by
  constructor
  · decide
  · decide

theorem getLastD_mem (cs : List α) (c : α) : cs.getLastD c ∈ c :: cs := by
  induction cs generalizing c with
  | nil => simp
  | cons d cs ih =>
    rw [List.getLastD_cons]
    exact List.mem_cons_of_mem c (ih d)

theorem cameraUpdatesOf_eq (items : List SurveyItem) :
    cameraUpdatesOf items =
      groupFold (fun (c : SCamera) => c.base.id) (fun c => c) (fun c _ => c)
        ((items.flatMap (fun it => it.cameras)).filter (fun c => c.repositioned)) := by
  rw [cameraUpdatesOf, foldl_flatMap, foldl_if_filter]
  rfl

theorem alookup_cameraUpdatesOf (items : List SurveyItem) (k : String) :
    alookup k (cameraUpdatesOf items) =
      match ((items.flatMap (fun it => it.cameras)).filter
          (fun c => c.repositioned)).filter (fun c => c.base.id = k) with
      | [] => none
      | c :: cs => some (cs.getLastD c) := by
  rw [cameraUpdatesOf_eq, groupFold_alookup]
  rcases hf : ((items.flatMap (fun it => it.cameras)).filter
      (fun c => c.repositioned)).filter (fun c => c.base.id = k) with _ | ⟨c, cs⟩ <;>
    rw [hf]
  exact congrArg some (foldl_keepLast cs c)

/-- C2: the updated-placements document keeps exactly the original cameras
with every original id (and every other dataset field) preserved; a camera
with a repositioned update gets only its latitude/longitude overwritten by
that update's `newLatitude`/`newLongitude`, every camera without one is
passed through unchanged, and an update exists for an id precisely when
some survey camera with that id is marked repositioned. -/
theorem buildUpdatedPlacements_props (oj : CameraJson) (items : List SurveyItem) :
    ((buildUpdatedPlacements (some oj) items).map (fun o => o.cameras.map (fun c => c.id))) =
        some (oj.cameras.map (fun c => c.id))
  ∧ ((buildUpdatedPlacements (some oj) items).map (fun o => o.extra)) = some oj.extra
  ∧ (∀ (i : Nat) (c : SrcCamera), oj.cameras[i]? = some c →
      (alookup c.id (cameraUpdatesOf items) = none →
        (buildUpdatedPlacements (some oj) items).bind (fun o => o.cameras[i]?) = some c)
    ∧ (∀ u : SCamera, alookup c.id (cameraUpdatesOf items) = some u →
        (buildUpdatedPlacements (some oj) items).bind (fun o => o.cameras[i]?) =
          some { c with latitude := u.newLatitude, longitude := u.newLongitude }))
  ∧ (∀ k : String,
      (alookup k (cameraUpdatesOf items) = none ↔
        ∀ it ∈ items, ∀ cam ∈ it.cameras, cam.repositioned = true → cam.base.id ≠ k)
    ∧ (∀ u : SCamera, alookup k (cameraUpdatesOf items) = some u →
        u ∈ items.flatMap (fun it => it.cameras) ∧ u.repositioned = true ∧ u.base.id = k)) := by
  refine ⟨?_, rfl, ?_, ?_⟩
  · rw [buildUpdatedPlacements, Option.map_some']
    congr 1
    rw [List.map_map]
    apply List.map_congr_left
    intro c _
    rcases h : alookup c.id (cameraUpdatesOf items) with _ | u <;> simp [h]
  · intro i c hi
    constructor
    · intro hlk
      rw [buildUpdatedPlacements, Option.some_bind, List.getElem?_map, hi, Option.map_some',
        hlk]
    · intro u hlk
      rw [buildUpdatedPlacements, Option.some_bind, List.getElem?_map, hi, Option.map_some',
        hlk]
  · intro k
    constructor
    · rw [alookup_cameraUpdatesOf]
      constructor
      · intro h it hit cam hcam hrep hid
        rcases hf : ((items.flatMap (fun it => it.cameras)).filter
            (fun c => c.repositioned)).filter (fun c => c.base.id = k) with _ | ⟨c, cs⟩
        · have hmem : cam ∈ ((items.flatMap (fun it => it.cameras)).filter
              (fun c => c.repositioned)).filter (fun c => c.base.id = k) := by
            rw [List.mem_filter, List.mem_filter]
            exact ⟨⟨List.mem_flatMap.mpr ⟨it, hit, hcam⟩, by simp [hrep]⟩, by simp [hid]⟩
          rw [hf] at hmem
          simp at hmem
        · rw [hf] at h
          simp at h
      · intro hall
        have hf : ((items.flatMap (fun it => it.cameras)).filter
            (fun c => c.repositioned)).filter (fun c => c.base.id = k) = [] := by
          rw [List.filter_eq_nil_iff]
          intro a ha
          rw [List.mem_filter] at ha
          rcases List.mem_flatMap.mp ha.1 with ⟨it, hit, hcam⟩
          have := hall it hit a hcam (by simpa using ha.2)
          simpa using this
        rw [hf]
    · intro u hu
      rw [alookup_cameraUpdatesOf] at hu
      rcases hf : ((items.flatMap (fun it => it.cameras)).filter
          (fun c => c.repositioned)).filter (fun c => c.base.id = k) with _ | ⟨c, cs⟩ <;>
        rw [hf] at hu
      · simp at hu
      · have huc : u = cs.getLastD c := by simpa using hu.symm
        have : u ∈ c :: cs := huc ▸ getLastD_mem cs c
        have humem : u ∈ ((items.flatMap (fun it => it.cameras)).filter
            (fun c => c.repositioned)).filter (fun c => c.base.id = k) := by
          rw [hf]; exact this
        rw [List.mem_filter, List.mem_filter] at humem
        exact ⟨humem.1.1, by simpa using humem.1.2, by simpa using humem.2⟩

/-- C2 witness: on the three-camera dataset `ojW` with exactly camera `b`
repositioned to `(0, 1)`, the updated-placements document keeps ids
`a, b, c`, changes only camera `b`'s coordinates, and passes `a` through. -/
theorem buildUpdatedPlacements_props_witness :
    ((buildUpdatedPlacements (some ojW) [itemW1]).map
        (fun o => o.cameras.map (fun c => c.id))) = some ["a", "b", "c"] ∧
    (buildUpdatedPlacements (some ojW) [itemW1]).bind (fun o => o.cameras[0]?) = some srcA ∧
    (buildUpdatedPlacements (some ojW) [itemW1]).bind (fun o => o.cameras[1]?) =
      some { srcB with latitude := some 0, longitude := some 1 } ∧
    (buildUpdatedPlacements (some ojW) [itemW1]).bind (fun o => o.cameras[2]?) = some srcC := by
  refine ⟨?_, ?_, ?_, ?_⟩
  · exact (buildUpdatedPlacements_props ojW [itemW1]).1
  · exact ((buildUpdatedPlacements_props ojW [itemW1]).2.2.1 0 srcA (by decide)).1 (by decide)
  · have h := ((buildUpdatedPlacements_props ojW [itemW1]).2.2.1 1 srcB (by decide)).2 scamB
      (by decide)
    exact h
  · exact ((buildUpdatedPlacements_props ojW [itemW1]).2.2.1 2 srcC (by decide)).1 (by decide)

theorem originalMapOf_eq (oj : CameraJson) :
    originalMapOf oj =
      groupFold (fun (c : SrcCamera) => c.id) (fun c => c) (fun c _ => c) oj.cameras := rfl

/-- C8: for a repositioned camera whose id is absent from the original
dataset, `buildCameraChanges` still emits its change record — with `null`
original coordinate and `null` distance — and populates every other field
(camera id, display name, owning room name, reason, new coordinate). -/
theorem buildCameraChanges_missing_original (oj : CameraJson) (items : List SurveyItem)
    (item : SurveyItem) (cam : SCamera)
    (hitem : item ∈ items) (hcam : cam ∈ item.cameras) (hrep : cam.repositioned = true)
    (habsent : ∀ oc ∈ oj.cameras, oc.id ≠ cam.base.id) :
    changeRecordFor oj item cam ∈ buildCameraChanges (some oj) items
  ∧ (changeRecordFor oj item cam).original = none
  ∧ (changeRecordFor oj item cam).distanceMeters = none
  ∧ (changeRecordFor oj item cam).id = cam.base.id
  ∧ (changeRecordFor oj item cam).name = jsOrS cam.base.name cam.base.id
  ∧ (changeRecordFor oj item cam).room = item.roomName
  ∧ (changeRecordFor oj item cam).reason = truthyStr cam.repositionReason
  ∧ (changeRecordFor oj item cam).new = (cam.newLatitude, cam.newLongitude) := by
  have hfe : oj.cameras.filter (fun c => c.id = cam.base.id) = [] := by
    rw [List.filter_eq_nil_iff]
    intro a ha
    simpa using habsent a ha
  have hlk : alookup cam.base.id (originalMapOf oj) = none := by
    rw [originalMapOf_eq, groupFold_alookup, hfe]
  refine ⟨?_, ?_, ?_, rfl, rfl, rfl, rfl, rfl⟩
  · show changeRecordFor oj item cam ∈
      items.flatMap (fun item =>
        (item.cameras.filter (fun cam => cam.repositioned)).map (changeRecordFor oj item))
    exact List.mem_flatMap.mpr
      ⟨item, hitem,
        List.mem_map_of_mem _ (List.mem_filter.mpr ⟨hcam, by simp [hrep]⟩)⟩
  · simp [changeRecordFor, hlk]
  · simp [changeRecordFor, hlk]

/-- C8 witness: camera `d` of room `Hall` is repositioned but absent from
the dataset `ojW`; its change record is emitted with null original and null
distance. -/
theorem buildCameraChanges_missing_original_witness :
    changeRecordFor ojW itemW2 scamD ∈ buildCameraChanges (some ojW) [itemW2] ∧
    (changeRecordFor ojW itemW2 scamD).original = none ∧
    (changeRecordFor ojW itemW2 scamD).distanceMeters = none ∧
    (changeRecordFor ojW itemW2 scamD).new = (some 3, some 4) :=
  have h := buildCameraChanges_missing_original ojW [itemW2] itemW2 scamD
    (by decide) (by decide) rfl (by decide)
  ⟨h.1, h.2.1, h.2.2.1, h.2.2.2.2.2.2.2⟩

theorem havA_self (lat lng : ℝ) : havA lat lng lat lng = 0 := by
  simp [havA, toRad]

theorem haversineDistance_self (lat lng : ℝ) : haversineDistance lat lng lat lng = 0 := by
  rw [haversineDistance, havA_self]
  simp [jsAtan2]

theorem havA_unit : havA 0 0 0 1 = Real.sin (Real.pi / 360) ^ 2 := by
  rw [havA, toRad, toRad, toRad]
  norm_num
  ring_nf

theorem haversineDistance_unit : haversineDistance 0 0 0 1 = 6371000 * Real.pi / 180 := by
  have hpi := Real.pi_pos
  have hθpos : (0 : ℝ) < Real.pi / 360 := by positivity
  have hθlt : Real.pi / 360 < Real.pi / 2 := by nlinarith
  have hθle : Real.pi / 360 ≤ Real.pi := by nlinarith
  have hsin : (0 : ℝ) ≤ Real.sin (Real.pi / 360) :=
    Real.sin_nonneg_of_nonneg_of_le_pi hθpos.le hθle
  have hcos : (0 : ℝ) < Real.cos (Real.pi / 360) :=
    Real.cos_pos_of_mem_Ioo ⟨by nlinarith, hθlt⟩
  have h1a : 1 - havA 0 0 0 1 = Real.cos (Real.pi / 360) ^ 2 := by
    rw [havA_unit]
    nlinarith [Real.sin_sq_add_cos_sq (Real.pi / 360)]
  rw [haversineDistance, h1a, havA_unit]
  rw [Real.sqrt_sq hsin, Real.sqrt_sq hcos.le]
  rw [jsAtan2, if_pos hcos]
  rw [← Real.tan_eq_sin_div_cos]
  rw [Real.arctan_tan (by nlinarith) hθlt]
  ring

/-- C5: the distance in the change log is the haversine great-circle
distance with Earth radius 6371000 m: it is 0 between identical
coordinates, within 50 m of 111195 m between (0,0) and (0,1), and every
emitted change record with a found original carries exactly that distance
rounded to one decimal place. -/
theorem haversine_props :
    (∀ lat lng : ℝ, haversineDistance lat lng lat lng = 0)
  ∧ |haversineDistance 0 0 0 1 - 111195| ≤ 50
  ∧ (∀ (oj : CameraJson) (items : List SurveyItem) (ch : CameraChange),
      ch ∈ buildCameraChanges (some oj) items →
      ∀ o : Option ℚ × Option ℚ, ch.original = some o →
        ch.distanceMeters =
          some (((round (haversineDistance (qord o.1) (qord o.2)
            (qord ch.new.1) (qord ch.new.2) * 10) : ℤ) : ℝ) / 10)) := by
  refine ⟨haversineDistance_self, ?_, ?_⟩
  · rw [haversineDistance_unit, abs_le]
    have h1 := Real.pi_gt_d6
    have h2 := Real.pi_lt_d6
    constructor <;> nlinarith
  · intro oj items ch hch o ho
    have hch' : ch ∈ items.flatMap (fun item =>
        (item.cameras.filter (fun cam => cam.repositioned)).map (changeRecordFor oj item)) :=
      hch
    rcases List.mem_flatMap.mp hch' with ⟨item, hitem, hmap⟩
    rcases List.mem_map.mp hmap with ⟨cam, hcamf, hcheq⟩
    subst hcheq
    rcases hog : alookup cam.base.id (originalMapOf oj) with _ | oc
    · rw [show (changeRecordFor oj item cam).original =
          (alookup cam.base.id (originalMapOf oj)).map
            (fun o => (o.latitude, o.longitude)) from rfl, hog] at ho
      simp at ho
    · have ho' : o = (oc.latitude, oc.longitude) := by
        rw [show (changeRecordFor oj item cam).original =
            (alookup cam.base.id (originalMapOf oj)).map
              (fun o => (o.latitude, o.longitude)) from rfl, hog] at ho
        simpa using ho.symm
      subst ho'
      show ((alookup cam.base.id (originalMapOf oj)).map (fun o =>
          haversineDistance (qord o.latitude) (qord o.longitude)
            (qord cam.newLatitude) (qord cam.newLongitude))).map
          (fun d => ((round (d * 10) : ℤ) : ℝ) / 10) = _
      rw [hog]
      rfl

/-- C5 witness: the change record of camera `b` (an original exists at
`(1, 1)`, new position `(0, 1)`) carries the rounded haversine distance of
its coordinates. -/
theorem haversine_props_witness :
    changeRecordFor ojW itemW1 scamB ∈ buildCameraChanges (some ojW) [itemW1] ∧
    (changeRecordFor ojW itemW1 scamB).original = some (some 1, some 1) ∧
    (changeRecordFor ojW itemW1 scamB).distanceMeters =
      some (((round (haversineDistance (qord (some 1)) (qord (some 1))
        (qord (changeRecordFor ojW itemW1 scamB).new.1)
        (qord (changeRecordFor ojW itemW1 scamB).new.2) * 10) : ℤ) : ℝ) / 10) := by
  have hmem : changeRecordFor ojW itemW1 scamB ∈ buildCameraChanges (some ojW) [itemW1] := by
    show changeRecordFor ojW itemW1 scamB ∈
      [itemW1].flatMap (fun item =>
        (item.cameras.filter (fun cam => cam.repositioned)).map (changeRecordFor ojW item))
    exact List.mem_flatMap.mpr
      ⟨itemW1, by decide, List.mem_map_of_mem _ (List.mem_filter.mpr ⟨by decide, rfl⟩)⟩
  have horig : (changeRecordFor ojW itemW1 scamB).original = some (some 1, some 1) := by
    show ((alookup scamB.base.id (originalMapOf ojW)).map
      (fun o => (o.latitude, o.longitude))) = some (some 1, some 1)
    rfl
  exact ⟨hmem, horig,
    haversine_props.2.2 ojW [itemW1] (changeRecordFor ojW itemW1 scamB) hmem
      (some 1, some 1) horig⟩

/-- C10: in the export document a camera entry's `newPosition` is non-null
exactly when the camera's `repositioned` flag is true; when false it is
null even if `newLatitude`/`newLongitude` hold values, and when true it
carries exactly those values. -/
theorem exportSurveyPayload_newPosition (items : List SurveyItem) (meta : ExportMeta)
    (now : String) :
    (∀ (i j : Nat) (item : SurveyItem) (cam : SCamera),
      items[i]? = some item → item.cameras[j]? = some cam →
      ((exportSurveyPayload items meta now).rooms[i]?).bind (fun r => r.cameras[j]?) =
        some (exportCameraOf cam))
  ∧ (∀ cam : SCamera,
      ((exportCameraOf cam).newPosition = none ↔ cam.repositioned = false)
    ∧ (cam.repositioned = true →
        (exportCameraOf cam).newPosition = some (cam.newLatitude, cam.newLongitude))
    ∧ (cam.repositioned = false → (exportCameraOf cam).newPosition = none)) := by
  constructor
  · intro i j item cam hi hj
    show ((items.map exportRoomOf)[i]?).bind (fun r => r.cameras[j]?) = some (exportCameraOf cam)
    rw [List.getElem?_map, hi, Option.map_some', Option.some_bind]
    show (item.cameras.map exportCameraOf)[j]? = some (exportCameraOf cam)
    rw [List.getElem?_map, hj, Option.map_some']
  · intro cam
    cases h : cam.repositioned <;>
      simp [exportCameraOf, h]

/-- C10 witness: exporting room `r1`, the non-repositioned camera `a` gets a
null `newPosition` (even though none was pending) and the repositioned
camera `b` gets exactly its new coordinates. -/
theorem exportSurveyPayload_newPosition_witness :
    ((exportSurveyPayload [itemW1] metaW "now").rooms[0]?).bind (fun r => r.cameras[0]?) =
      some (exportCameraOf scamA) ∧
    ((exportSurveyPayload [itemW1] metaW "now").rooms[0]?).bind (fun r => r.cameras[1]?) =
      some (exportCameraOf scamB) ∧
    (exportCameraOf scamA).newPosition = none ∧
    (exportCameraOf scamB).newPosition = some (some 0, some 1) :=
  ⟨(exportSurveyPayload_newPosition [itemW1] metaW "now").1 0 0 itemW1 scamA rfl rfl,
   (exportSurveyPayload_newPosition [itemW1] metaW "now").1 0 1 itemW1 scamB rfl rfl,
   ((exportSurveyPayload_newPosition [itemW1] metaW "now").2 scamA).2.2 rfl,
   ((exportSurveyPayload_newPosition [itemW1] metaW "now").2 scamB).2.1 rfl⟩

/-- C6 (amended): each exported photo entry carries the label, the
timestamp, and a single `url` field equal to the remote reference `s3Url`
when that is present and non-empty, and otherwise equal to the photo's
`dataUrl` — so a never-uploaded photo's binary data URL is embedded in the
export document. -/
theorem exportSurveyPayload_photos (items : List SurveyItem) (meta : ExportMeta)
    (now : String) :
    (∀ (i j : Nat) (item : SurveyItem) (p : Photo),
      items[i]? = some item → item.survey.photos[j]? = some p →
      ((exportSurveyPayload items meta now).rooms[i]?).bind
          (fun r => r.survey.photos[j]?) =
        some { label := p.label, timestamp := p.timestamp, url := jsOrS p.s3Url p.dataUrl })
  ∧ (∀ p : Photo, p.s3Url = none → jsOrS p.s3Url p.dataUrl = p.dataUrl)
  ∧ (∀ p : Photo, p.s3Url = some "" → jsOrS p.s3Url p.dataUrl = p.dataUrl)
  ∧ (∀ (p : Photo) (s : String), p.s3Url = some s → s ≠ "" →
      jsOrS p.s3Url p.dataUrl = s) := by
  refine ⟨?_, ?_, ?_, ?_⟩
  · intro i j item p hi hj
    show ((items.map exportRoomOf)[i]?).bind (fun r => r.survey.photos[j]?) = _
    rw [List.getElem?_map, hi, Option.map_some', Option.some_bind]
    show ((item.survey.photos.map (fun p =>
        ({ label := p.label, timestamp := p.timestamp,
           url := jsOrS p.s3Url p.dataUrl } : ExportPhoto)))[j]?) = _
    rw [List.getElem?_map, hj, Option.map_some']
  · intro p hp
    simp [jsOrS, truthyStr, hp]
  · intro p hp
    simp [jsOrS, truthyStr, hp]
  · intro p s hp hs
    simp [jsOrS, truthyStr, hp, hs]

/-- C6 witness: the photo of room `r5` was never uploaded (`s3Url` absent),
so its exported entry's `url` falls back to the photo's data URL. -/
theorem exportSurveyPayload_photos_witness :
    ((exportSurveyPayload [itemW5] metaW "now").rooms[0]?).bind
        (fun r => r.survey.photos[0]?) =
      some { label := photoCex.label, timestamp := photoCex.timestamp,
             url := jsOrS photoCex.s3Url photoCex.dataUrl } ∧
    jsOrS photoCex.s3Url photoCex.dataUrl = photoCex.dataUrl :=
  ⟨(exportSurveyPayload_photos [itemW5] metaW "now").1 0 0 itemW5 photoCex rfl rfl,
   (exportSurveyPayload_photos [itemW5] metaW "now").2.1 photoCex rfl⟩

/-- C6 counterexample: exporting a room whose photo was never uploaded
embeds the photo's binary data URL (`data:image/jpeg;base64,...`) verbatim
as the entry's `url` — the export document does carry binary photo data,
refuting the claim that it never does. -/
theorem exportSurveyPayload_photos_cex :
    ((exportSurveyPayload [itemW5] metaW "now").rooms.map (fun r => r.survey.photos)) =
      [[{ label := "overview", timestamp := "tp",
          url := "data:image/jpeg;base64,AAAA" }]] ∧
    photoCex.s3Url = none ∧
    photoCex.dataUrl = "data:image/jpeg;base64,AAAA" := by
  refine ⟨by decide, rfl, rfl⟩

theorem mem_of_getElem?_eq_some : ∀ (l : List α) (i : Nat) (a : α), l[i]? = some a → a ∈ l := by
  intro l
  induction l with
  | nil => intro i a h; simp at h
  | cons b l ih =>
    intro i a h
    cases i with
    | zero =>
      simp only [List.getElem?_cons_zero, Option.some.injEq] at h
      simp [h]
    | succ i => exact List.mem_cons_of_mem b (ih i a (by simpa using h))

theorem mapWithIndex_map {α β γ : Type} (f : Nat → α → β) (g : β → γ) (h0 : α → γ)
    (h : ∀ i a, g (f i a) = h0 a) (l : List α) : ∀ n, (mapWithIndex f n l).map g = l.map h0 := by
  induction l with
  | nil => intro n; rfl
  | cons a l ih => intro n; simp [mapWithIndex, h, ih]

theorem alookup_roomGroup (cs : List SrcCamera) (k : String) (b : List SrcCamera)
    (h : alookup k (groupFold roomKeyOf (fun c => [c]) (fun c l => l ++ [c]) cs) = some b) :
    b = cs.filter (fun c => roomKeyOf c = k) := by
  rw [groupFold_alookup] at h
  rcases hf : cs.filter (fun c => roomKeyOf c = k) with _ | ⟨c, cs'⟩ <;> rw [hf] at h
  · simp at h
  · have hb : b = cs'.foldl (fun b x => b ++ [x]) [c] := (Option.some.inj h).symm
    rw [foldl_append_singleton_list] at hb
    simpa using hb

theorem alookup_floorGroup (cams : List SrcCamera) (k : String) (b : FloorBucket)
    (h : alookup k (groupFold floorKeyOf
        (fun c => ({ cameras := [c], floorName := truthyStr c.floorName } : FloorBucket))
        (fun c b => { cameras := b.cameras ++ [c], floorName := b.floorName <|> truthyStr c.floorName })
        cams) = some b) :
    b.cameras = cams.filter (fun c => floorKeyOf c = k) ∧
    b.floorName = firstTruthyName (cams.filter (fun c => floorKeyOf c = k)) := by
  rw [groupFold_alookup] at h
  rcases hf : cams.filter (fun c => floorKeyOf c = k) with _ | ⟨c, cs⟩ <;> rw [hf] at h
  · simp at h
  · have hb : b = cs.foldl
        (fun b x => ({ cameras := b.cameras ++ [x], floorName := b.floorName <|> truthyStr x.floorName } : FloorBucket))
        ⟨[c], truthyStr c.floorName⟩ := (Option.some.inj h).symm
    rw [foldl_floorBucket] at hb
    subst hb
    exact ⟨by simp, rfl⟩

theorem parseCameraData_floors (j : CameraJson) :
    (parseCameraData j).floors =
      mapWithIndex (fun index (e : String × FloorBucket) =>
        { floorId := e.1
          floorName := e.2.floorName.getD
            (if (jsEntries (groupFold floorKeyOf
                (fun c => ({ cameras := [c], floorName := truthyStr c.floorName } : FloorBucket))
                (fun c b => { cameras := b.cameras ++ [c], floorName := b.floorName <|> truthyStr c.floorName })
                j.cameras)).length = 1
              then "All Rooms" else "Floor " ++ toString (index + 1))
          rooms := (jsEntries (groupFold roomKeyOf (fun c => [c]) (fun c l => l ++ [c])
              e.2.cameras)).map
            (fun re => { name := re.1, cameras := re.2, center := centerOf re.2 : ParsedRoom })
          cameraCount := e.2.cameras.length : ParsedFloor }) 0
        (jsEntries (groupFold floorKeyOf
          (fun c => ({ cameras := [c], floorName := truthyStr c.floorName } : FloorBucket))
          (fun c b => { cameras := b.cameras ++ [c], floorName := b.floorName <|> truthyStr c.floorName })
          j.cameras)) := rfl

/-- C3 (amended): `parseCameraData` groups cameras by floor id (bucket
"unknown" when the id is absent or empty), with floors in ECMAScript
object-enumeration order of the first-seen floor keys — integer-like keys
first in ascending numeric order, then the remaining keys in first-seen
order; within each floor it groups by room key (the camera's `room` field
if present, else its `name`, else "Camera " followed by its id), with rooms
in the same enumeration order of the first-seen room keys; each floor's
display name is the first camera-supplied floor name of its bucket if any,
else "All Rooms" when the dataset has exactly one floor, else "Floor N"
with N the floor's 1-based position in enumeration order. -/
theorem parseCameraData_grouping (j : CameraJson) :
    ((parseCameraData j).floors.map (fun f => f.floorId) =
        jsKeyOrder (firstSeen (j.cameras.map floorKeyOf)))
  ∧ (∀ (i : Nat) (f : ParsedFloor), (parseCameraData j).floors[i]? = some f →
      f.cameraCount = (j.cameras.filter (fun c => floorKeyOf c = f.floorId)).length
    ∧ f.rooms.map (fun r => r.name) =
        jsKeyOrder (firstSeen ((j.cameras.filter
          (fun c => floorKeyOf c = f.floorId)).map roomKeyOf))
    ∧ (∀ r ∈ f.rooms, r.cameras =
        (j.cameras.filter (fun c => floorKeyOf c = f.floorId)).filter
          (fun c => roomKeyOf c = r.name))
    ∧ f.floorName =
        (firstTruthyName (j.cameras.filter (fun c => floorKeyOf c = f.floorId))).getD
          (if (firstSeen (j.cameras.map floorKeyOf)).length = 1 then "All Rooms"
           else "Floor " ++ toString (i + 1))) := by
  have hfl := parseCameraData_floors j
  set F := groupFold floorKeyOf
      (fun c => ({ cameras := [c], floorName := truthyStr c.floorName } : FloorBucket))
      (fun c b => { cameras := b.cameras ++ [c], floorName := b.floorName <|> truthyStr c.floorName })
      j.cameras with hFdef
  have hkeys : F.map Prod.fst = firstSeen (j.cameras.map floorKeyOf) := by
    rw [hFdef]
    exact groupFold_keys _ _ _ _
  have hlenF : (jsEntries F).length = (firstSeen (j.cameras.map floorKeyOf)).length := by
    rw [jsEntries_length, ← hkeys, List.length_map]
  constructor
  · rw [hfl]
    have h1 := mapWithIndex_map
      (fun index (e : String × FloorBucket) =>
        ({ floorId := e.1
           floorName := e.2.floorName.getD
             (if (jsEntries F).length = 1 then "All Rooms"
              else "Floor " ++ toString (index + 1))
           rooms := (jsEntries (groupFold roomKeyOf (fun c => [c]) (fun c l => l ++ [c])
               e.2.cameras)).map
             (fun re => { name := re.1, cameras := re.2, center := centerOf re.2 : ParsedRoom })
           cameraCount := e.2.cameras.length : ParsedFloor }))
      (fun f => f.floorId) Prod.fst (fun i e => rfl) (jsEntries F) 0
    rw [h1]
    have h2 := jsEntries_map_fst F
    rw [h2, hkeys]
  · intro i f hf
    rw [hfl, mapWithIndex_getElem?] at hf
    rcases he : (jsEntries F)[i]? with _ | e <;> rw [he] at hf
    · simp at hf
    · rw [Option.map_some'] at hf
      have hfe : f =
          { floorId := e.1
            floorName := e.2.floorName.getD
              (if (jsEntries F).length = 1 then "All Rooms"
               else "Floor " ++ toString (0 + i + 1))
            rooms := (jsEntries (groupFold roomKeyOf (fun c => [c]) (fun c l => l ++ [c])
                e.2.cameras)).map
              (fun re => { name := re.1, cameras := re.2, center := centerOf re.2 : ParsedRoom })
            cameraCount := e.2.cameras.length : ParsedFloor } := (Option.some.inj hf).symm
      have hmemE : e ∈ jsEntries F := mem_of_getElem?_eq_some _ i e he
      have halk : alookup e.1 F = some e.2 := mem_jsEntries hmemE
      have hbk := alookup_floorGroup j.cameras e.1 e.2 (by rw [← hFdef]; exact halk)
      obtain ⟨hbc, hbn⟩ := hbk
      subst hfe
      refine ⟨?_, ?_, ?_, ?_⟩
      · show e.2.cameras.length = (j.cameras.filter (fun c => floorKeyOf c = e.1)).length
        rw [hbc]
      · show (((jsEntries (groupFold roomKeyOf (fun c => [c]) (fun c l => l ++ [c])
              e.2.cameras)).map
            (fun re => { name := re.1, cameras := re.2, center := centerOf re.2 : ParsedRoom })).map
              (fun r => r.name)) =
          jsKeyOrder (firstSeen ((j.cameras.filter
            (fun c => floorKeyOf c = e.1)).map roomKeyOf))
        rw [List.map_map]
        have h3 := jsEntries_map_fst
          (groupFold roomKeyOf (fun c => [c]) (fun c l => l ++ [c]) e.2.cameras)
        have h4 : ((jsEntries (groupFold roomKeyOf (fun c => [c]) (fun c l => l ++ [c])
            e.2.cameras)).map ((fun (r : ParsedRoom) => r.name) ∘
              (fun re => { name := re.1, cameras := re.2, center := centerOf re.2 : ParsedRoom }))) =
            jsKeyOrder ((groupFold roomKeyOf (fun c => [c]) (fun c l => l ++ [c])
              e.2.cameras).map Prod.fst) := h3
        rw [h4, groupFold_keys, hbc]
      · intro r hr
        have hr' : r ∈ (jsEntries (groupFold roomKeyOf (fun c => [c]) (fun c l => l ++ [c])
            e.2.cameras)).map
            (fun re => { name := re.1, cameras := re.2, center := centerOf re.2 : ParsedRoom }) := hr
        rcases List.mem_map.mp hr' with ⟨re, hre, hrr⟩
        have hralk : alookup re.1 (groupFold roomKeyOf (fun c => [c]) (fun c l => l ++ [c])
            e.2.cameras) = some re.2 := mem_jsEntries hre
        have hrb := alookup_roomGroup e.2.cameras re.1 re.2 hralk
        subst hrr
        show re.2 = (j.cameras.filter (fun c => floorKeyOf c = e.1)).filter
          (fun c => roomKeyOf c = re.1)
        rw [← hbc]
        exact hrb
      · show e.2.floorName.getD
            (if (jsEntries F).length = 1 then "All Rooms"
             else "Floor " ++ toString (0 + i + 1)) =
          (firstTruthyName (j.cameras.filter (fun c => floorKeyOf c = e.1))).getD
            (if (firstSeen (j.cameras.map floorKeyOf)).length = 1 then "All Rooms"
             else "Floor " ++ toString (i + 1))
        rw [hbn, hlenF, Nat.zero_add]

/-- C3 counterexample: with floor ids `"2"` (seen first) and `"1"` (seen
second) — both canonical integer-like JS property keys — `Object.entries`
enumerates the buckets in ascending numeric order, so the parsed floors
come out as `"1", "2"`, not in first-seen order `"2", "1"`; the ordinal
display names follow the enumeration order as well. -/
theorem parseCameraData_firstSeen_cex :
    firstSeen (cexJson.cameras.map floorKeyOf) = ["2", "1"] ∧
    (parseCameraData cexJson).floors.map (fun f => f.floorId) = ["1", "2"] ∧
    (parseCameraData cexJson).floors.map (fun f => f.floorName) = ["Floor 1", "Floor 2"] ∧
    (["1", "2"] : List String) ≠ ["2", "1"] := by
  refine ⟨by decide, by decide, by decide, by decide⟩

/-- C3 witness: on the two-floor dataset `cexJson` the enumeration-order
characterisation holds, and the first enumerated floor is floor `"1"` with
its single camera and the ordinal name "Floor 1". -/
theorem parseCameraData_grouping_witness :
    (parseCameraData cexJson).floors.map (fun f => f.floorId) =
        jsKeyOrder (firstSeen (cexJson.cameras.map floorKeyOf)) ∧
    (parseCameraData cexJson).floors[0]? = some floorCex ∧
    floorCex.cameraCount =
      (cexJson.cameras.filter (fun c => floorKeyOf c = floorCex.floorId)).length ∧
    floorCex.floorName =
      (firstTruthyName (cexJson.cameras.filter
          (fun c => floorKeyOf c = floorCex.floorId))).getD
        (if (firstSeen (cexJson.cameras.map floorKeyOf)).length = 1 then "All Rooms"
         else "Floor " ++ toString (0 + 1)) := by
  have h0 : (parseCameraData cexJson).floors[0]? = some floorCex := by decide
  have h := (parseCameraData_grouping cexJson).2 0 floorCex h0
  exact ⟨(parseCameraData_grouping cexJson).1, h0, h.1, h.2.2.2⟩
